import Mathlib

/-!
Verification of the persistence and domain-integrity layer of a dental clinic
management system (Python/SQLite).  The Lean definitions below are a shallow
embedding of the source:

* `src/models/appointment.py`, `src/models/patient.py`, `src/models/treatment.py`
  (domain value objects),
* `src/database/user_manager.py` (account store),
* `src/database/database_manager.py` (clinical persistence service).

Modelling conventions:
* Python `datetime.date` / `datetime.time` become `PyDate` / `PyTime`; the
  `datetime.time` constructor, which raises `ValueError` outside
  `0 ≤ hour ≤ 23`, `0 ≤ minute ≤ 59`, is the fallible `mkTime`.
* SQLite `REAL` money columns are modelled as `Rat`; the payment-application
  claims are algebraic identities over the accumulated values.
* Wall-clock "now" is an explicit `today : PyDate` parameter.
* The SHA-256 hash is an abstract parameter `hash : String → String`: the
  account-store contracts hold for any one-way function used consistently.
* A SQLite statement that can violate a declared constraint is a function
  into `Option`; `none` models the raised `sqlite3.IntegrityError`.  The
  `with conn:` block of `sqlite3` commits on normal exit and rolls the open
  transaction back when the block raises, so an operation whose statement
  fails returns the unchanged database state.
* `sqlite3` does not enable `PRAGMA foreign_keys`, so foreign-key clauses are
  not enforced and are not modelled as failure sources.
-/

/-- Calendar date as Python `datetime.date` restricted to the fields the code
reads; Python compares dates lexicographically on (year, month, day). -/
structure PyDate where
  year : Nat
  month : Nat
  day : Nat
  deriving DecidableEq, Repr

/-- Python `date` comparison `a < b`: lexicographic on (year, month, day). -/
def pyDateLt (a b : PyDate) : Prop :=
  a.year < b.year ∨ (a.year = b.year ∧
    (a.month < b.month ∨ (a.month = b.month ∧ a.day < b.day)))

instance (a b : PyDate) : Decidable (pyDateLt a b) := by
  unfold pyDateLt; exact inferInstance

/-- Python tuple comparison `(a1, a2) < (b1, b2)` on naturals (used by
`Patient.age` for `(today.month, today.day) < (dob.month, dob.day)`). -/
def pyPairLt (a b : Nat × Nat) : Prop :=
  a.1 < b.1 ∨ (a.1 = b.1 ∧ a.2 < b.2)

instance (a b : Nat × Nat) : Decidable (pyPairLt a b) := by
  unfold pyPairLt; exact inferInstance

/-- Time-of-day as Python `datetime.time` restricted to the fields the code
reads (hour, minute). -/
structure PyTime where
  hour : Nat
  minute : Nat
  deriving DecidableEq, Repr

/-- Python `datetime.time(hour=h, minute=m)`: raises `ValueError` (here:
`none`) unless `0 ≤ h ≤ 23` and `0 ≤ m ≤ 59`. -/
def mkTime (h m : Int) : Option PyTime :=
  if 0 ≤ h ∧ h ≤ 23 ∧ 0 ≤ m ∧ m ≤ 59 then some ⟨h.toNat, m.toNat⟩ else none

/-- Appointment status enumeration of `src/models/appointment.py`. -/
inductive AppointmentStatus where
  | scheduled
  | confirmed
  | in_progress
  | completed
  | cancelled
  | no_show
  deriving DecidableEq, Repr

/-- Parsing a status string, as Python `AppointmentStatus(s)`: `none` models
the raised `ValueError` for a string that is not one of the six values. -/
def statusOfString (s : String) : Option AppointmentStatus :=
  if s = "scheduled" then some .scheduled
  else if s = "confirmed" then some .confirmed
  else if s = "in_progress" then some .in_progress
  else if s = "completed" then some .completed
  else if s = "cancelled" then some .cancelled
  else if s = "no_show" then some .no_show
  else none

/-- Appointment value object (dataclass of `src/models/appointment.py`). -/
structure Appointment where
  id : Option Nat := none
  patient_id : Nat := 0
  appointment_date : Option PyDate := none
  appointment_time : Option PyTime := none
  duration : Int := 60
  treatment_type : String := ""
  notes : String := ""
  status : AppointmentStatus := .scheduled
  created_at : Option String := none
  updated_at : Option String := none
  patient_name : String := ""
  deriving DecidableEq, Repr

/-- `Appointment.end_time`: computes `hour*60 + minute + duration`, splits by
`// 60` and `% 60` (Python floor division and floor modulus on ints), and
constructs `datetime.time` from the results.  No reduction of the hour count
modulo 24 is performed before the constructor call. -/
def Appointment.end_time (a : Appointment) : Option PyTime :=
  match a.appointment_time with
  | some t =>
      let total_minutes : Int := (t.hour : Int) * 60 + (t.minute : Int) + a.duration
      mkTime (Int.fdiv total_minutes 60) (Int.fmod total_minutes 60)
  | none => none

/-- `Appointment.validate` (the `today` parameter is `date.today()`): the
checks run in source order, each appending its message. -/
def Appointment.validate (today : PyDate) (a : Appointment) : List String :=
  (if a.patient_id = 0 then ["Patient is required"] else []) ++
  (match a.appointment_date with
   | none => ["Appointment date is required"]
   | some d => if pyDateLt d today then ["Appointment date cannot be in the past"] else []) ++
  (match a.appointment_time with
   | none => ["Appointment time is required"]
   | some _ => []) ++
  (if a.duration ≤ 0 then ["Duration must be greater than 0"] else []) ++
  (if a.duration > 480 then ["Duration cannot exceed 8 hours"] else [])

/-- Input mapping of `Appointment.from_dict`: `data.get(k)` is `none` for an
absent key.  Values carry the types the code subsequently assumes. -/
structure ApptDict where
  id : Option Nat := none
  patient_id : Option Nat := none
  appointment_date : Option String := none
  appointment_time : Option String := none
  duration : Option Int := none
  treatment_type : Option String := none
  notes : Option String := none
  status : Option String := none
  created_at : Option String := none
  updated_at : Option String := none
  patient_name : Option String := none

/-- Python truthiness of an optional string: `None` and `""` are falsy. -/
def optTruthy : Option String → Bool
  | none => false
  | some s => s != ""

/-- `Appointment.from_dict`.  The standard-library parsers
`date.fromisoformat` / `time.fromisoformat` are abstract parameters returning
`none` for the raised `ValueError`; the `try/except ValueError: pass` around
each parse (and around `AppointmentStatus(s)`) leaves the default in place. -/
def Appointment.from_dict (parseDate : String → Option PyDate)
    (parseTime : String → Option PyTime) (data : ApptDict) : Appointment :=
  let appointment_date :=
    match data.appointment_date with
    | some s => if s ≠ "" then parseDate s else none
    | none => none
  let appointment_time :=
    match data.appointment_time with
    | some s => if s ≠ "" then parseTime s else none
    | none => none
  let status :=
    match data.status with
    | some s => if s ≠ "" then (statusOfString s).getD .scheduled else .scheduled
    | none => AppointmentStatus.scheduled
  { id := data.id
    patient_id := data.patient_id.getD 0
    appointment_date := appointment_date
    appointment_time := appointment_time
    duration := data.duration.getD 60
    treatment_type := data.treatment_type.getD ""
    notes := data.notes.getD ""
    status := status
    created_at := data.created_at
    updated_at := data.updated_at
    patient_name := data.patient_name.getD "" }

/-- Treatment value object (dataclass of `src/models/treatment.py`). -/
structure Treatment where
  id : Option Nat := none
  name : String := ""
  description : String := ""
  duration : Int := 60
  cost : Rat := 0
  created_at : Option String := none
  deriving DecidableEq, Repr

/-- `Treatment.validate`, checks in source order. -/
def Treatment.validate (t : Treatment) : List String :=
  (if t.name.trim = "" then ["Treatment name is required"] else []) ++
  (if t.duration ≤ 0 then ["Duration must be greater than 0"] else []) ++
  (if t.duration > 480 then ["Duration cannot exceed 8 hours"] else []) ++
  (if t.cost < 0 then ["Cost cannot be negative"] else [])

/-- Characters removed from a phone number before the format check
(`.replace(' ','').replace('-','').replace('(','').replace(')','')`). -/
def isPhoneStrip (c : Char) : Bool :=
  c == ' ' || c == '-' || c == '(' || c == ')'

/-- Body of the phone regex `[1-9][\d]{0,15}$` after the optional sign: a
first digit 1–9 followed by at most 15 further digits, consuming the whole
remainder. -/
def phoneCore (l : List Char) : Bool :=
  match l with
  | [] => false
  | c :: rest =>
      decide ('1' ≤ c ∧ c ≤ '9') && rest.all Char.isDigit && decide (rest.length ≤ 15)

/-- `Patient._is_valid_phone` / `validators.validate_phone` format core:
strip separators, then match the anchored regex with its optional leading
plus sign. -/
def is_valid_phone (phone : String) : Bool :=
  let cleaned := phone.toList.filter (fun c => !(isPhoneStrip c))
  match cleaned with
  | '+' :: rest => phoneCore rest
  | l => phoneCore l

/-- Character class of the email local part, `[a-zA-Z0-9._%+-]`. -/
def isLocalChar (c : Char) : Bool :=
  c.isAlphanum || c == '.' || c == '_' || c == '%' || c == '+' || c == '-'

/-- Character class of the email domain part, `[a-zA-Z0-9.-]`. -/
def isDomainChar (c : Char) : Bool :=
  c.isAlphanum || c == '.' || c == '-'

/-- Matching of `[a-zA-Z0-9.-]+\.[a-zA-Z]{2,}$` against the text after the
`@`: some split into a nonempty domain-class run, a literal dot, and a final
all-alphabetic run of length at least 2. -/
def emailDomainOk (r : List Char) : Bool :=
  (List.range (r.length + 1)).any fun i =>
    decide (1 ≤ i) && (r.take i).all isDomainChar &&
      (match r.drop i with
       | '.' :: t => decide (2 ≤ t.length) && t.all Char.isAlpha
       | _ => false)

/-- `Patient._is_valid_email` / `validators.validate_email` format core: the
anchored regex `[a-zA-Z0-9._%+-]+@[a-zA-Z0-9.-]+\.[a-zA-Z]{2,}$`.  Neither
character class contains `@`, so the regex is equivalent to: some split at an
`@` with a nonempty local-class run before it and a matching domain after. -/
def is_valid_email (email : String) : Bool :=
  let l := email.toList
  (List.range (l.length + 1)).any fun i =>
    decide (1 ≤ i) && (l.take i).all isLocalChar &&
      (match l.drop i with
       | '@' :: r => emailDomainOk r
       | _ => false)

/-- Patient value object (dataclass of `src/models/patient.py`). -/
structure Patient where
  id : Option Nat := none
  first_name : String := ""
  last_name : String := ""
  date_of_birth : Option PyDate := none
  phone : String := ""
  email : String := ""
  address : String := ""
  emergency_contact : String := ""
  medical_history : String := ""
  created_at : Option String := none
  updated_at : Option String := none
  deriving DecidableEq, Repr

/-- `Patient.age` (the `today` parameter is `date.today()`):
`today.year - dob.year - ((today.month, today.day) < (dob.month, dob.day))`,
the Python boolean coercing to 0 or 1. -/
def Patient.age (today : PyDate) (p : Patient) : Option Int :=
  match p.date_of_birth with
  | some d =>
      some ((today.year : Int) - (d.year : Int) -
        (if pyPairLt (today.month, today.day) (d.month, d.day) then 1 else 0))
  | none => none

/-- `Patient.validate`, checks in source order; the phone and email format
checks are guarded by the truthiness of the field (`if self.phone and …`). -/
def Patient.validate (p : Patient) : List String :=
  (if p.first_name.trim = "" then ["First name is required"] else []) ++
  (if p.last_name.trim = "" then ["Last name is required"] else []) ++
  (if (p.phone != "") && !(is_valid_phone p.phone) then ["Invalid phone number format"] else []) ++
  (if (p.email != "") && !(is_valid_email p.email) then ["Invalid email format"] else [])

/-- Row of the simplified `users` table of `src/database/user_manager.py`
(`id, username, password, role` with `UNIQUE(username)` and
`CHECK (role IN ('doctor', 'receptionist'))`). -/
structure UserRow where
  id : Nat
  username : String
  password : String
  role : String
  deriving DecidableEq, Repr

/-- Enumerated-value check of the `users.role` column. -/
def validRole (role : String) : Bool :=
  role == "doctor" || role == "receptionist"

/-- Next AUTOINCREMENT key for the `users` table. -/
def nextUserId (db : List UserRow) : Nat :=
  (db.map (fun r => r.id)).foldr max 0 + 1

/-- `UserManager.register_user`: hashes the password and runs one INSERT.  A
`sqlite3.IntegrityError` — the UNIQUE(username) constraint or the role CHECK
constraint — is caught and reported as `false` with the table unchanged (the
open transaction is rolled back by the connection context manager). -/
def register_user (hash : String → String) (db : List UserRow)
    (username password role : String) : List UserRow × Bool :=
  if db.any (fun r => r.username == username) || !(validRole role) then
    (db, false)
  else
    (db ++ [⟨nextUserId db, username, hash password, role⟩], true)

/-- `UserManager.authenticate_user`: hashes the supplied password and selects
the first row with `username = ? AND password = ?`; `none` models the
`return None` on no matching row. -/
def authenticate_user (hash : String → String) (db : List UserRow)
    (username password : String) : Option UserRow :=
  db.find? (fun r => r.username == username && r.password == hash password)

/-- Row of the `invoices` table restricted to the columns read or written by
payment application (`id`, `total_amount`, `amount_paid`, `balance_due`);
monetary REAL columns are modelled as rationals. -/
structure InvoiceRow where
  id : Nat
  invoice_number : String
  total_amount : Rat
  amount_paid : Rat
  balance_due : Rat
  deriving DecidableEq, Repr

/-- Row of the `payments` table (NOT NULL columns are non-optional). -/
structure PaymentRow where
  invoice_id : Nat
  payment_date : String
  payment_amount : Rat
  payment_method : String
  payment_reference : Option String := none
  notes : Option String := none
  created_by : Option Nat := none
  deriving DecidableEq, Repr

/-- The slice of the clinical database state touched by payment
application. -/
structure ClinicDB where
  invoices : List InvoiceRow
  payments : List PaymentRow
  deriving DecidableEq, Repr

/-- Enumerated-value CHECK constraint of `payments.payment_method`. -/
def validPaymentMethod (m : String) : Bool :=
  m == "cash" || m == "credit_card" || m == "debit_card" || m == "check" ||
  m == "insurance" || m == "online" || m == "other"

/-- The INSERT INTO payments statement: appends the row, or fails
(`sqlite3.IntegrityError`) when the payment-method CHECK constraint is
violated. -/
def insertPaymentStmt (db : ClinicDB) (pd : PaymentRow) : Option ClinicDB :=
  if validPaymentMethod pd.payment_method then
    some { db with payments := db.payments ++ [pd] }
  else
    none

/-- Effect of the UPDATE invoices statement on one matching row:
`amount_paid = amount_paid + ?`, `balance_due = total_amount -
(amount_paid + ?)`, both `?` bound to the payment amount. -/
def updateInvoiceAmounts (amount : Rat) (inv : InvoiceRow) : InvoiceRow :=
  { inv with
    amount_paid := inv.amount_paid + amount
    balance_due := inv.total_amount - (inv.amount_paid + amount) }

/-- The UPDATE invoices statement: rewrites every row whose id matches (this
statement violates no declared constraint, so it cannot fail). -/
def updateInvoiceStmt (db : ClinicDB) (invoice_id : Nat) (amount : Rat) : ClinicDB :=
  { db with
    invoices := db.invoices.map
      (fun inv => if inv.id = invoice_id then updateInvoiceAmounts amount inv else inv) }

/-- `DatabaseManager.add_payment`: INSERT the payment row, UPDATE the owning
invoice, then commit.  Both statements run in the one implicit transaction of
the `with conn:` block: if the INSERT raises, the block rolls the transaction
back and re-raises, leaving the database unchanged (`(db, none)`); on success
the commit makes both effects durable and `cursor.lastrowid` (here: the new
row count of `payments`) is returned. -/
def add_payment (db : ClinicDB) (pd : PaymentRow) : ClinicDB × Option Nat :=
  match insertPaymentStmt db pd with
  | some db1 => (updateInvoiceStmt db1 pd.invoice_id pd.payment_amount, some (db.payments.length + 1))
  | none => (db, none)

/-- Lookup of an invoice row by id (first match, as a SELECT … WHERE id = ?
under the uniqueness of the surrogate key). -/
def getInvoiceById (db : ClinicDB) (invoice_id : Nat) : Option InvoiceRow :=
  db.invoices.find? (fun inv => inv.id == invoice_id)

/-- Sequential application of `add_payment` for a list of payment rows,
keeping the database state of each call. -/
def applyPayments (db : ClinicDB) (ps : List PaymentRow) : ClinicDB :=
  ps.foldl (fun d pd => (add_payment d pd).1) db

/-- Row of the `patients` table restricted to the columns the listing claims
depend on (`SELECT *` rows ride along unchanged). -/
structure PatientRow where
  id : Nat
  first_name : String
  last_name : String
  is_active : Bool
  deriving DecidableEq, Repr

/-- ASCII case folding used by SQLite's default `LIKE`: the characters A–Z
compare equal to their lowercase forms; all other characters (including
non-ASCII) compare byte-wise. -/
def foldChar (c : Char) : Char :=
  if 'A' ≤ c ∧ c ≤ 'Z' then Char.ofNat (c.toNat + 32) else c

/-- SQLite `LIKE` matching of a pattern against a string: `%` matches any
(possibly empty) sequence — realized by trying every suffix of the remaining
text — `_` matches exactly one character, and any other pattern character
matches case-insensitively (ASCII). -/
def likeMatch : List Char → List Char → Bool
  | [], s => s.isEmpty
  | p :: ps, s =>
      if p = '%' then
        (List.range (s.length + 1)).any (fun i => likeMatch ps (s.drop i))
      else
        match s with
        | [] => false
        | c :: s' => (if p = '_' then true else foldChar p == foldChar c) && likeMatch ps s'

/-- The pattern the code builds for a search term: `f'%{search_term}%'`. -/
def likePattern (t : String) : List Char :=
  '%' :: (t.toList ++ ['%'])

/-- WHERE clause of the search branch of `get_patients`:
`(first_name LIKE '%t%' OR last_name LIKE '%t%') AND is_active = 1`. -/
def patientMatches (t : String) (r : PatientRow) : Bool :=
  (likeMatch (likePattern t) r.first_name.toList ||
   likeMatch (likePattern t) r.last_name.toList) && r.is_active

/-- ORDER BY last_name, first_name (SQLite BINARY collation on UTF-8 text
coincides with the codepoint-lexicographic `String` order). -/
def patLe (a b : PatientRow) : Prop :=
  a.last_name < b.last_name ∨ (a.last_name = b.last_name ∧ a.first_name ≤ b.first_name)

instance : DecidableRel patLe := fun a b => by
  unfold patLe; exact inferInstance

instance : IsTotal PatientRow patLe := by
  constructor
  intro a b
  rcases lt_trichotomy a.last_name b.last_name with h | h | h
  · exact Or.inl (Or.inl h)
  · rcases le_total a.first_name b.first_name with h2 | h2
    · exact Or.inl (Or.inr ⟨h, h2⟩)
    · exact Or.inr (Or.inr ⟨h.symm, h2⟩)
  · exact Or.inr (Or.inl h)

instance : IsTrans PatientRow patLe := by
  constructor
  intro a b c hab hbc
  rcases hab with hab | ⟨hab, hab2⟩
  · rcases hbc with hbc | ⟨hbc, _⟩
    · exact Or.inl (hab.trans hbc)
    · exact Or.inl (hbc ▸ hab)
  · rcases hbc with hbc | ⟨hbc, hbc2⟩
    · exact Or.inl (hab ▸ hbc)
    · exact Or.inr ⟨hab.trans hbc, hab2.trans hbc2⟩

/-- `DatabaseManager.get_patients`: Python's `if search_term:` sends both
`None` and the empty string to the list-all branch; each branch filters the
table by its WHERE clause and sorts by (last_name, first_name). -/
def get_patients (search_term : Option String) (db : List PatientRow) : List PatientRow :=
  match search_term with
  | some t =>
      if t ≠ "" then List.insertionSort patLe (db.filter (patientMatches t))
      else List.insertionSort patLe (db.filter (fun r => r.is_active))
  | none => List.insertionSort patLe (db.filter (fun r => r.is_active))

/-- Case-insensitive substring containment, the specification-side reading of
the search filter: the folded search term occurs inside the folded name. -/
def containsCI (t s : String) : Prop :=
  (t.toList.map foldChar) <:+: (s.toList.map foldChar)

instance (t s : String) : Decidable (containsCI t s) := by
  unfold containsCI; exact inferInstance

/-- A search term is wildcard-free when it contains neither `%` nor `_`. -/
def noWildcards (t : String) : Bool :=
  t.toList.all (fun c => !(c == '%' || c == '_'))

/-- Helper: `List.find?` returns the designated element when it is a match and
every match equals it. -/
theorem find_eq_some_of_mem_of_unique {α : Type} (p : α → Bool) (l : List α) (r : α)
    (hr : r ∈ l) (hp : p r = true) (huniq : ∀ x ∈ l, p x = true → x = r) :
    l.find? p = some r := by
  induction l with
  | nil => cases hr
  | cons a l ih =>
    by_cases hpa : p a = true
    · rw [List.find?_cons_of_pos _ hpa]
      rw [huniq a (List.mem_cons_self a l) hpa]
    · rw [List.find?_cons_of_neg _ (by simp [hpa])]
      rcases List.mem_cons.mp hr with h | h
      · exact absurd (h ▸ hp) hpa
      · exact ih h (fun x hx hpx => huniq x (List.mem_cons_of_mem a hx) hpx)

/-- Helper: payment application does not change an invoice row's key. -/
theorem updateInvoiceAmounts_id (a : Rat) (inv : InvoiceRow) :
    (updateInvoiceAmounts a inv).id = inv.id := rfl

/-- Helper: a successful `add_payment` transforms the looked-up invoice row by
`updateInvoiceAmounts`. -/
theorem getInvoiceById_add_payment (db : ClinicDB) (pd : PaymentRow) (i : Nat)
    (hm : validPaymentMethod pd.payment_method = true) (hi : pd.invoice_id = i) :
    getInvoiceById (add_payment db pd).1 i =
      (getInvoiceById db i).map (updateInvoiceAmounts pd.payment_amount) := by
  simp only [add_payment, insertPaymentStmt, hm, if_true]
  unfold getInvoiceById updateInvoiceStmt
  simp only [List.find?_map]
  have hcomp : ((fun inv : InvoiceRow => inv.id == i) ∘
      (fun inv => if inv.id = pd.invoice_id then updateInvoiceAmounts pd.payment_amount inv else inv)) =
      (fun inv : InvoiceRow => inv.id == i) := by
    funext inv
    by_cases h : inv.id = pd.invoice_id <;> simp [h, updateInvoiceAmounts_id]
  rw [hcomp]
  cases hfind : db.invoices.find? (fun inv => inv.id == i) with
  | none => rfl
  | some r =>
    have hr := List.find?_some hfind
    have hri : r.id = pd.invoice_id := by
      rw [hi]
      exact beq_iff_eq.mp hr
    simp [hri]

/-- Helper: a sequence of `add_payment` calls with valid methods folds
`updateInvoiceAmounts` over the looked-up invoice row. -/
theorem getInvoiceById_applyPayments (i : Nat) (ps : List PaymentRow) :
    ∀ db : ClinicDB,
    (∀ pd ∈ ps, pd.invoice_id = i ∧ validPaymentMethod pd.payment_method = true) →
    getInvoiceById (applyPayments db ps) i =
      (getInvoiceById db i).map
        (fun inv => ps.foldl (fun v pd => updateInvoiceAmounts pd.payment_amount v) inv) := by
  induction ps with
  | nil =>
    intro db _
    cases h : getInvoiceById db i <;> simp [applyPayments, h]
  | cons pd ps ih =>
    intro db hps
    have h1 := hps pd (List.mem_cons_self pd ps)
    have hstep : applyPayments db (pd :: ps) = applyPayments (add_payment db pd).1 ps := rfl
    rw [hstep, ih _ (fun x hx => hps x (List.mem_cons_of_mem pd hx)),
        getInvoiceById_add_payment db pd i h1.2 h1.1, Option.map_map]
    rfl

/-- Helper: the invoice total is unchanged by any fold of payment updates. -/
theorem rowFold_total (ps : List PaymentRow) :
    ∀ inv : InvoiceRow,
    (ps.foldl (fun v pd => updateInvoiceAmounts pd.payment_amount v) inv).total_amount =
      inv.total_amount := by
  induction ps with
  | nil => intro inv; rfl
  | cons pd ps ih => intro inv; rw [List.foldl_cons, ih]; rfl

/-- Helper: `amount_paid` after a fold of payment updates is the initial value
plus the sum of the applied amounts. -/
theorem rowFold_amount_paid (ps : List PaymentRow) :
    ∀ inv : InvoiceRow,
    (ps.foldl (fun v pd => updateInvoiceAmounts pd.payment_amount v) inv).amount_paid =
      inv.amount_paid + (ps.map (fun pd => pd.payment_amount)).sum := by
  induction ps with
  | nil => intro inv; simp
  | cons pd ps ih =>
    intro inv
    rw [List.foldl_cons, ih]
    show inv.amount_paid + pd.payment_amount + _ = _
    rw [List.map_cons, List.sum_cons, add_assoc]

/-- Helper: after at least one payment update, `balance_due` equals the
(unchanged) total minus the accumulated `amount_paid`. -/
theorem rowFold_balance (ps : List PaymentRow) (hne : ps ≠ []) :
    ∀ inv : InvoiceRow,
    (ps.foldl (fun v pd => updateInvoiceAmounts pd.payment_amount v) inv).balance_due =
      inv.total_amount -
        (ps.foldl (fun v pd => updateInvoiceAmounts pd.payment_amount v) inv).amount_paid := by
  induction ps with
  | nil => exact absurd rfl hne
  | cons pd ps ih =>
    intro inv
    cases ps with
    | nil => rfl
    | cons q qs =>
      rw [List.foldl_cons, ih (List.cons_ne_nil q qs)]
      rfl

/-- C1: for every invoice (looked up by id, starting with `amount_paid = 0`) and
every sequence of payments applied via `add_payment` (amount > 0, valid
method), after every prefix of the sequence `amount_paid` equals the sum of
the amounts applied so far and `balance_due` equals
`total_amount - amount_paid` (once at least one payment has been applied);
each further payment strictly increases `amount_paid`. -/
theorem add_payment_prefix_invariant (db : ClinicDB) (i : Nat) (inv0 : InvoiceRow)
    (ps : List PaymentRow)
    (hfind : getInvoiceById db i = some inv0)
    (h0 : inv0.amount_paid = 0)
    (hps : ∀ pd ∈ ps, pd.invoice_id = i ∧ validPaymentMethod pd.payment_method = true ∧
       0 < pd.payment_amount) :
    ∀ k, k ≤ ps.length → ∃ invk,
      getInvoiceById (applyPayments db (ps.take k)) i = some invk ∧
      invk.total_amount = inv0.total_amount ∧
      invk.amount_paid = ((ps.take k).map (fun pd => pd.payment_amount)).sum ∧
      (1 ≤ k → invk.balance_due = inv0.total_amount - invk.amount_paid) ∧
      (∀ invk1, k + 1 ≤ ps.length →
         getInvoiceById (applyPayments db (ps.take (k + 1))) i = some invk1 →
         invk.amount_paid < invk1.amount_paid) := by
  intro k hk
  have htake : ∀ (j : Nat), ∀ pd ∈ ps.take j,
      pd.invoice_id = i ∧ validPaymentMethod pd.payment_method = true := by
    intro j pd h
    exact ⟨(hps pd (List.mem_of_mem_take h)).1, (hps pd (List.mem_of_mem_take h)).2.1⟩
  have hmain : ∀ j, getInvoiceById (applyPayments db (ps.take j)) i =
      some ((ps.take j).foldl (fun v pd => updateInvoiceAmounts pd.payment_amount v) inv0) := by
    intro j
    rw [getInvoiceById_applyPayments i (ps.take j) db (htake j), hfind]
    rfl
  refine ⟨_, hmain k, rowFold_total _ inv0, ?_, ?_, ?_⟩
  · rw [rowFold_amount_paid, h0, zero_add]
  · intro h1k
    have hne : ps.take k ≠ [] := by
      intro h
      rcases List.take_eq_nil_iff.mp h with h' | h'
      · omega
      · rw [h'] at hk
        simp at hk
        omega
    exact rowFold_balance _ hne inv0
  · intro invk1 hk1 hfind1
    rw [hmain (k + 1)] at hfind1
    injection hfind1 with h1
    rw [← h1, rowFold_amount_paid, rowFold_amount_paid]
    have hklen : k < ps.length := by omega
    have htk : ps.take (k + 1) = ps.take k ++ [ps[k]] := by
      rw [List.take_succ, List.getElem?_eq_getElem hklen]
      rfl
    rw [htk, List.map_append, List.sum_append]
    have hpos := (hps ps[k] (List.getElem_mem hklen)).2.2
    simp only [List.map_cons, List.map_nil, List.sum_cons, List.sum_nil, add_zero]
    have hlt : ((ps.take k).map (fun pd => pd.payment_amount)).sum <
        ((ps.take k).map (fun pd => pd.payment_amount)).sum + ps[k].payment_amount :=
      lt_add_of_pos_right _ hpos
    linarith

theorem add_payment_prefix_invariant_witness :
    getInvoiceById ⟨[⟨1, "INV-001", 150, 0, 0⟩], []⟩ 1 = some ⟨1, "INV-001", 150, 0, 0⟩ ∧
    (0 : Rat) < 100 ∧
    (∃ invk,
      getInvoiceById (applyPayments ⟨[⟨1, "INV-001", 150, 0, 0⟩], []⟩
        ([⟨1, "2026-01-01", 100, "cash", none, none, none⟩].take 1)) 1 = some invk ∧
      invk.total_amount = (⟨1, "INV-001", 150, 0, 0⟩ : InvoiceRow).total_amount ∧
      invk.amount_paid = (([(⟨1, "2026-01-01", 100, "cash", none, none, none⟩ : PaymentRow)].take 1).map
        (fun pd => pd.payment_amount)).sum ∧
      (1 ≤ 1 → invk.balance_due = (⟨1, "INV-001", 150, 0, 0⟩ : InvoiceRow).total_amount - invk.amount_paid) ∧
      (∀ invk1, 1 + 1 ≤ ([(⟨1, "2026-01-01", 100, "cash", none, none, none⟩ : PaymentRow)] : List PaymentRow).length →
         getInvoiceById (applyPayments ⟨[⟨1, "INV-001", 150, 0, 0⟩], []⟩
           ([(⟨1, "2026-01-01", 100, "cash", none, none, none⟩ : PaymentRow)].take (1 + 1))) 1 = some invk1 →
         invk.amount_paid < invk1.amount_paid)) :=
  ⟨by decide, by decide,
   add_payment_prefix_invariant ⟨[⟨1, "INV-001", 150, 0, 0⟩], []⟩ 1 ⟨1, "INV-001", 150, 0, 0⟩
     [⟨1, "2026-01-01", 100, "cash", none, none, none⟩] (by decide) (by decide)
     (by decide) 1 (by decide)⟩

/-- C2: `add_payment` is atomic: on success both the payment-row insert and
the owning invoice's `amount_paid`/`balance_due` update take effect; on
failure (the raised constraint violation rolls back the transaction) the
database — both the invoices and payments tables — is unchanged. -/
theorem add_payment_atomic (db : ClinicDB) (pd : PaymentRow) :
    ((add_payment db pd).2.isSome = true →
       (add_payment db pd).1.payments = db.payments ++ [pd] ∧
       (add_payment db pd).1.invoices = db.invoices.map
         (fun inv => if inv.id = pd.invoice_id then updateInvoiceAmounts pd.payment_amount inv else inv)) ∧
    ((add_payment db pd).2 = none → (add_payment db pd).1 = db) := by
  by_cases h : validPaymentMethod pd.payment_method
  · simp [add_payment, insertPaymentStmt, updateInvoiceStmt, h]
  · simp [add_payment, insertPaymentStmt, h]

theorem add_payment_atomic_witness :
    (add_payment ⟨[⟨1, "INV-001", 150, 0, 0⟩], []⟩ ⟨1, "2026-01-01", 100, "cash", none, none, none⟩).2.isSome = true ∧
    (add_payment ⟨[⟨1, "INV-001", 150, 0, 0⟩], []⟩ ⟨1, "2026-01-01", 100, "cash", none, none, none⟩).1.payments =
      ([] : List PaymentRow) ++ [⟨1, "2026-01-01", 100, "cash", none, none, none⟩] ∧
    (add_payment ⟨[⟨1, "INV-001", 150, 0, 0⟩], []⟩ ⟨1, "2026-01-05", 100, "iou", none, none, none⟩).2 = none ∧
    (add_payment ⟨[⟨1, "INV-001", 150, 0, 0⟩], []⟩ ⟨1, "2026-01-05", 100, "iou", none, none, none⟩).1 =
      ⟨[⟨1, "INV-001", 150, 0, 0⟩], []⟩ :=
  ⟨by decide,
   ((add_payment_atomic ⟨[⟨1, "INV-001", 150, 0, 0⟩], []⟩ ⟨1, "2026-01-01", 100, "cash", none, none, none⟩).1 (by decide)).1,
   by decide,
   (add_payment_atomic ⟨[⟨1, "INV-001", 150, 0, 0⟩], []⟩ ⟨1, "2026-01-05", 100, "iou", none, none, none⟩).2 (by decide)⟩

/-- C3: evaluation of `Appointment.end_time` at the boundary.  For start 23:30
and duration 60 the code computes `hours = 24` and calls
`datetime.time(hour=24, minute=30)`, which raises `ValueError` (modelled
`none`) instead of returning the 00:30 promised by the specification; a
non-overflowing input (10:00 + 90min) returns start plus duration. -/
theorem end_time_midnight_rollover_bug :
    Appointment.end_time { appointment_time := some ⟨23, 30⟩, duration := 60 } = none ∧
    Appointment.end_time { appointment_time := some ⟨10, 0⟩, duration := 90 } = some ⟨11, 30⟩ := by
  constructor <;> decide

/-- C4: `authenticate_user` returns the stored account record exactly when the
username exists (usernames unique) and the hash of the supplied credential
equals the stored hash; a known username with a wrong credential and an
unknown username both produce the one same `none` outcome. -/
theorem authenticate_user_spec (hash : String → String) (db : List UserRow) (u c : String)
    (huniq : (db.map (fun r => r.username)).Nodup) :
    (∀ r ∈ db, r.username = u →
       (authenticate_user hash db u c = some r ↔ hash c = r.password)) ∧
    (∀ r ∈ db, r.username = u → hash c ≠ r.password →
       authenticate_user hash db u c = none) ∧
    ((∀ r ∈ db, r.username ≠ u) → authenticate_user hash db u c = none) := by
  have hinj : ∀ x ∈ db, ∀ y ∈ db, x.username = y.username → x = y :=
    List.inj_on_of_nodup_map huniq
  refine ⟨?_, ?_, ?_⟩
  · intro r hr hru
    constructor
    · intro hfind
      have hp := List.find?_some hfind
      simp only [Bool.and_eq_true, beq_iff_eq] at hp
      exact hp.2.symm
    · intro hpw
      apply find_eq_some_of_mem_of_unique
      · exact hr
      · simp [hru, hpw.symm]
      · intro x hx hpx
        simp only [Bool.and_eq_true, beq_iff_eq] at hpx
        exact hinj x hx r hr (hpx.1.trans hru.symm)
  · intro r hr hru hpw
    unfold authenticate_user
    rw [List.find?_eq_none]
    intro x hx
    simp only [Bool.and_eq_true, beq_iff_eq, not_and]
    intro hxu hxp
    exact hpw (((hinj x hx r hr (hxu.trans hru.symm)) ▸ hxp).symm)
  · intro hnone
    unfold authenticate_user
    rw [List.find?_eq_none]
    intro x hx
    simp only [Bool.and_eq_true, beq_iff_eq, not_and]
    intro hxu _
    exact absurd hxu (hnone x hx)

theorem authenticate_user_spec_witness :
    (([⟨1, "doctor", "doctor123", "doctor"⟩] : List UserRow).map (fun r => r.username)).Nodup ∧
    authenticate_user id [⟨1, "doctor", "doctor123", "doctor"⟩] "doctor" "doctor123" =
      some ⟨1, "doctor", "doctor123", "doctor"⟩ ∧
    authenticate_user id [⟨1, "doctor", "doctor123", "doctor"⟩] "doctor" "wrong" = none ∧
    authenticate_user id [⟨1, "doctor", "doctor123", "doctor"⟩] "nobody" "doctor123" = none :=
  ⟨by decide,
   ((authenticate_user_spec id [⟨1, "doctor", "doctor123", "doctor"⟩] "doctor" "doctor123"
       (by decide)).1 ⟨1, "doctor", "doctor123", "doctor"⟩ (List.mem_cons_self _ _) rfl).mpr rfl,
   (authenticate_user_spec id [⟨1, "doctor", "doctor123", "doctor"⟩] "doctor" "wrong"
       (by decide)).2.1 ⟨1, "doctor", "doctor123", "doctor"⟩ (List.mem_cons_self _ _) rfl (by decide),
   (authenticate_user_spec id [⟨1, "doctor", "doctor123", "doctor"⟩] "nobody" "doctor123"
       (by decide)).2.2 (by decide)⟩

/-- C5: registering a username that is fresh (and a valid role) succeeds;
registering the same username a second time fails via the uniqueness
constraint with the table unchanged, and the table retains exactly one row
for that username. -/
theorem register_user_unique (hash : String → String) (db : List UserRow)
    (u pw1 pw2 role1 role2 : String)
    (hfresh : db.countP (fun r => r.username == u) = 0)
    (hrole : validRole role1 = true) :
    (register_user hash db u pw1 role1).2 = true ∧
    (register_user hash db u pw1 role1).1.countP (fun r => r.username == u) = 1 ∧
    (register_user hash (register_user hash db u pw1 role1).1 u pw2 role2).2 = false ∧
    (register_user hash (register_user hash db u pw1 role1).1 u pw2 role2).1 =
      (register_user hash db u pw1 role1).1 ∧
    (register_user hash (register_user hash db u pw1 role1).1 u pw2 role2).1.countP
      (fun r => r.username == u) = 1 := by
  have hnone : ∀ x ∈ db, ¬ (x.username == u) = true := List.countP_eq_zero.mp hfresh
  have hany : db.any (fun r => r.username == u) = false := by
    rw [List.any_eq_false]; exact hnone
  have hreg : register_user hash db u pw1 role1 =
      (db ++ [⟨nextUserId db, u, hash pw1, role1⟩], true) := by
    unfold register_user
    rw [hany, hrole]
    simp
  have hany2 : (db ++ [(⟨nextUserId db, u, hash pw1, role1⟩ : UserRow)]).any
      (fun r => r.username == u) = true := by
    rw [List.any_append]
    simp
  have hcount : (db ++ [(⟨nextUserId db, u, hash pw1, role1⟩ : UserRow)]).countP
      (fun r => r.username == u) = 1 := by
    rw [List.countP_append, hfresh]
    simp [List.countP_cons]
  have hreg2 : register_user hash (db ++ [⟨nextUserId db, u, hash pw1, role1⟩]) u pw2 role2 =
      (db ++ [⟨nextUserId db, u, hash pw1, role1⟩], false) := by
    unfold register_user
    rw [hany2]
    simp
  rw [hreg]
  exact ⟨rfl, hcount, by rw [hreg2], by rw [hreg2], by rw [hreg2]; exact hcount⟩

theorem register_user_unique_witness :
    ([] : List UserRow).countP (fun r => r.username == "doctor") = 0 ∧
    validRole "doctor" = true ∧
    (register_user id [] "doctor" "doctor123" "doctor").2 = true ∧
    (register_user id (register_user id [] "doctor" "doctor123" "doctor").1
      "doctor" "other" "receptionist").2 = false :=
  ⟨by decide, by decide,
   (register_user_unique id [] "doctor" "doctor123" "other" "doctor" "receptionist"
     (by decide) (by decide)).1,
   (register_user_unique id [] "doctor" "doctor123" "other" "doctor" "receptionist"
     (by decide) (by decide)).2.2.1⟩

/-- C7: appointment (and treatment) validation reports the
greater-than-zero duration message exactly when `d ≤ 0`, the
eight-hour message exactly when `d > 480`, reports no duration violation
exactly when `0 < d ≤ 480`, and the two duration messages differ. -/
theorem duration_validation_spec (today : PyDate) (a : Appointment) (t : Treatment) :
    (("Duration must be greater than 0" ∈ Appointment.validate today a) ↔ a.duration ≤ 0) ∧
    (("Duration cannot exceed 8 hours" ∈ Appointment.validate today a) ↔ 480 < a.duration) ∧
    ((0 < a.duration ∧ a.duration ≤ 480) ↔
       ("Duration must be greater than 0" ∉ Appointment.validate today a ∧
        "Duration cannot exceed 8 hours" ∉ Appointment.validate today a)) ∧
    (("Duration must be greater than 0" : String) ≠ "Duration cannot exceed 8 hours") ∧
    (("Duration must be greater than 0" ∈ Treatment.validate t) ↔ t.duration ≤ 0) ∧
    (("Duration cannot exceed 8 hours" ∈ Treatment.validate t) ↔ 480 < t.duration) := by
  have h1 : ("Duration must be greater than 0" ∈ Appointment.validate today a) ↔ a.duration ≤ 0 := by
    simp only [Appointment.validate, List.mem_append]
    cases hd : a.appointment_date <;> cases ht : a.appointment_time <;>
      split_ifs <;> simp_all
  have h2 : ("Duration cannot exceed 8 hours" ∈ Appointment.validate today a) ↔ 480 < a.duration := by
    simp only [Appointment.validate, List.mem_append]
    cases hd : a.appointment_date <;> cases ht : a.appointment_time <;>
      split_ifs <;> simp_all
  refine ⟨h1, h2, ?_, by decide, ?_, ?_⟩
  · rw [not_iff_not.mpr h1, not_iff_not.mpr h2]
    omega
  · simp only [Treatment.validate, List.mem_append]
    split_ifs <;> simp_all
  · simp only [Treatment.validate, List.mem_append]
    split_ifs <;> simp_all

theorem duration_validation_spec_witness :
    (0 < ({ duration := 90 } : Appointment).duration ∧ ({ duration := 90 } : Appointment).duration ≤ 480) ∧
    ("Duration must be greater than 0" ∉ Appointment.validate ⟨2026, 10, 12⟩ { duration := 90 } ∧
     "Duration cannot exceed 8 hours" ∉ Appointment.validate ⟨2026, 10, 12⟩ { duration := 90 }) ∧
    ("Duration must be greater than 0" ∈ Appointment.validate ⟨2026, 10, 12⟩ { duration := 0 }) ∧
    ("Duration cannot exceed 8 hours" ∈ Appointment.validate ⟨2026, 10, 12⟩ { duration := 481 }) :=
  ⟨by decide,
   (duration_validation_spec ⟨2026, 10, 12⟩ { duration := 90 } {}).2.2.1.mp (by decide),
   (duration_validation_spec ⟨2026, 10, 12⟩ { duration := 0 } {}).1.mpr (by decide),
   (duration_validation_spec ⟨2026, 10, 12⟩ { duration := 481 } {}).2.1.mpr (by decide)⟩

/-- C8: `Patient.age` returns the current year minus the birth year,
decremented by one exactly when the birthday (month, day) has not yet
occurred in the current year, and returns no value without a date of
birth. -/
theorem patient_age_spec (today : PyDate) (p : Patient) :
    (p.date_of_birth = none → Patient.age today p = none) ∧
    (∀ d, p.date_of_birth = some d →
      Patient.age today p = some ((today.year : Int) - (d.year : Int) -
        (if today.month < d.month ∨ (today.month = d.month ∧ today.day < d.day)
         then 1 else 0))) := by
  constructor
  · intro h
    simp [Patient.age, h]
  · intro d hd
    by_cases hb : today.month < d.month ∨ (today.month = d.month ∧ today.day < d.day)
    · rw [if_pos hb]
      simp only [Patient.age, hd]
      rw [if_pos (show pyPairLt (today.month, today.day) (d.month, d.day) from hb)]
    · rw [if_neg hb]
      simp only [Patient.age, hd]
      rw [if_neg (show ¬ pyPairLt (today.month, today.day) (d.month, d.day) from hb)]

theorem patient_age_spec_witness :
    ({ date_of_birth := some ⟨1990, 6, 15⟩ } : Patient).date_of_birth = some ⟨1990, 6, 15⟩ ∧
    Patient.age ⟨2026, 10, 12⟩ { date_of_birth := some ⟨1990, 6, 15⟩ } =
      some ((2026 : Int) - (1990 : Int) -
        (if (10 : Nat) < 6 ∨ ((10 : Nat) = 6 ∧ (12 : Nat) < 15) then 1 else 0)) :=
  ⟨rfl, (patient_age_spec ⟨2026, 10, 12⟩ { date_of_birth := some ⟨1990, 6, 15⟩ }).2
    ⟨1990, 6, 15⟩ rfl⟩

/-- C9: `Appointment.from_dict` never fails on an unrecognized status string:
an absent or unrecognized `status` value yields the default `scheduled`,
and a recognized status string parses to the corresponding enum value. -/
theorem from_dict_status_fallback (parseDate : String → Option PyDate)
    (parseTime : String → Option PyTime) (data : ApptDict) :
    (data.status = none → (Appointment.from_dict parseDate parseTime data).status = .scheduled) ∧
    (∀ s, data.status = some s → statusOfString s = none →
       (Appointment.from_dict parseDate parseTime data).status = .scheduled) ∧
    (∀ s v, data.status = some s → statusOfString s = some v →
       (Appointment.from_dict parseDate parseTime data).status = v) := by
  refine ⟨?_, ?_, ?_⟩
  · intro h
    simp [Appointment.from_dict, h]
  · intro s hs hnone
    by_cases he : s = ""
    · simp [Appointment.from_dict, hs, he]
    · simp [Appointment.from_dict, hs, he, hnone]
  · intro s v hs hv
    have he : s ≠ "" := by
      intro he
      rw [he, show statusOfString "" = none from rfl] at hv
      cases hv
    simp [Appointment.from_dict, hs, he, hv]

theorem from_dict_status_fallback_witness :
    ({ status := some "bogus" } : ApptDict).status = some "bogus" ∧
    statusOfString "bogus" = none ∧
    (Appointment.from_dict (fun _ => none) (fun _ => none) { status := some "bogus" }).status = .scheduled ∧
    ({ status := some "completed" } : ApptDict).status = some "completed" ∧
    statusOfString "completed" = some .completed ∧
    (Appointment.from_dict (fun _ => none) (fun _ => none) { status := some "completed" }).status = .completed :=
  ⟨rfl, by decide, (from_dict_status_fallback (fun _ => none) (fun _ => none)
      { status := some "bogus" }).2.1 "bogus" rfl (by decide),
   rfl, by decide, (from_dict_status_fallback (fun _ => none) (fun _ => none)
      { status := some "completed" }).2.2 "completed" .completed rfl (by decide)⟩

/-- C10: `Patient.validate` reports a phone-format (resp. email-format)
violation exactly for a non-empty phone (resp. email) failing its format
check; in particular empty phone and email fields report no format
violations. -/
theorem patient_validate_contact_format (p : Patient) :
    (("Invalid phone number format" ∈ Patient.validate p) ↔
       (p.phone ≠ "" ∧ is_valid_phone p.phone = false)) ∧
    (("Invalid email format" ∈ Patient.validate p) ↔
       (p.email ≠ "" ∧ is_valid_email p.email = false)) ∧
    (p.phone = "" → p.email = "" →
       "Invalid phone number format" ∉ Patient.validate p ∧
       "Invalid email format" ∉ Patient.validate p) := by
  have h1 : ("Invalid phone number format" ∈ Patient.validate p) ↔
      (p.phone ≠ "" ∧ is_valid_phone p.phone = false) := by
    simp only [Patient.validate, List.mem_append]
    split_ifs <;> simp_all
  have h2 : ("Invalid email format" ∈ Patient.validate p) ↔
      (p.email ≠ "" ∧ is_valid_email p.email = false) := by
    simp only [Patient.validate, List.mem_append]
    split_ifs <;> simp_all
  refine ⟨h1, h2, fun hp he => ⟨?_, ?_⟩⟩
  · rw [h1]; simp [hp]
  · rw [h2]; simp [he]

theorem patient_validate_contact_format_witness :
    ({ first_name := "Jane", last_name := "Doe" } : Patient).phone = "" ∧
    ({ first_name := "Jane", last_name := "Doe" } : Patient).email = "" ∧
    "Invalid phone number format" ∉ Patient.validate { first_name := "Jane", last_name := "Doe" } ∧
    "Invalid email format" ∉ Patient.validate { first_name := "Jane", last_name := "Doe" } :=
  ⟨rfl, rfl,
   ((patient_validate_contact_format { first_name := "Jane", last_name := "Doe" }).2.2 rfl rfl).1,
   ((patient_validate_contact_format { first_name := "Jane", last_name := "Doe" }).2.2 rfl rfl).2⟩

/-- Helper: matching a pattern beginning with `%` is matching the rest of the
pattern against some suffix. -/
theorem likeMatch_pct (ps s : List Char) :
    likeMatch ('%' :: ps) s = true ↔ ∃ s2, s2 <:+ s ∧ likeMatch ps s2 = true := by
  show ((List.range (s.length + 1)).any fun i => likeMatch ps (s.drop i)) = true ↔ _
  rw [List.any_eq_true]
  constructor
  · rintro ⟨i, _, hlm⟩
    exact ⟨s.drop i, List.drop_suffix i s, hlm⟩
  · rintro ⟨s2, hsuf, hlm⟩
    obtain ⟨u, hu⟩ := hsuf
    refine ⟨u.length, ?_, ?_⟩
    · rw [List.mem_range]
      have hlen := congrArg List.length hu
      rw [List.length_append] at hlen
      omega
    · rw [← hu, List.drop_left]
      exact hlm

/-- Helper: a wildcard-free pattern followed by `%` matches exactly the strings
beginning with a case-fold-equal copy of the pattern. -/
theorem likeMatch_lit (t : List Char) (hw : t.all (fun c => !(c == '%' || c == '_')) = true) :
    ∀ s, likeMatch (t ++ ['%']) s = true ↔
      ∃ s1 s2, s = s1 ++ s2 ∧ s1.map foldChar = t.map foldChar := by
  induction t with
  | nil =>
    intro s
    constructor
    · intro _
      exact ⟨[], s, rfl, rfl⟩
    · intro _
      show likeMatch ('%' :: []) s = true
      rw [likeMatch_pct]
      exact ⟨[], List.nil_suffix, rfl⟩
  | cons a t ih =>
    rw [List.all_cons, Bool.and_eq_true] at hw
    obtain ⟨hpa, hpt⟩ := hw
    rw [Bool.not_eq_true', Bool.or_eq_false_iff] at hpa
    obtain ⟨ha1, ha2⟩ := hpa
    rw [beq_eq_false_iff_ne] at ha1 ha2
    intro s
    cases s with
    | nil =>
      rw [List.cons_append]
      simp only [likeMatch, if_neg ha1]
      constructor
      · intro h
        simp at h
      · rintro ⟨s1, s2, hs, hm⟩
        cases s1 with
        | nil => simp at hm
        | cons d s1' => simp at hs
    | cons c s' =>
      rw [List.cons_append]
      simp only [likeMatch, if_neg ha1, if_neg ha2]
      rw [Bool.and_eq_true, beq_iff_eq, ih hpt s']
      constructor
      · rintro ⟨hfc, s1, s2, hs, hm⟩
        refine ⟨c :: s1, s2, by rw [hs, List.cons_append], ?_⟩
        rw [List.map_cons, List.map_cons, hm, hfc]
      · rintro ⟨s1, s2, hs, hm⟩
        cases s1 with
        | nil => simp at hm
        | cons d s1' =>
          rw [List.cons_append, List.cons.injEq] at hs
          rw [List.map_cons, List.map_cons, List.cons.injEq] at hm
          refine ⟨?_, s1', s2, hs.2, hm.2⟩
          rw [hs.1]
          exact hm.1.symm

/-- Helper: for a wildcard-free term the pattern `%term%` matches exactly the
strings whose case-folded form contains the folded term. -/
theorem likeMatch_infix_of_noWild (t s : List Char)
    (hw : t.all (fun c => !(c == '%' || c == '_')) = true) :
    likeMatch ('%' :: (t ++ ['%'])) s = true ↔ (t.map foldChar) <:+: (s.map foldChar) := by
  rw [likeMatch_pct]
  constructor
  · rintro ⟨s2, hsuf, hlm⟩
    obtain ⟨s1, s3, hs2, hmap⟩ := (likeMatch_lit t hw s2).mp hlm
    obtain ⟨s0, hs0⟩ := hsuf
    refine ⟨s0.map foldChar, s3.map foldChar, ?_⟩
    rw [← hs0, hs2]
    simp [hmap]
  · rintro ⟨u, v, huv⟩
    obtain ⟨l1, l2, hs, h1, h2⟩ := List.map_eq_append_iff.mp huv.symm
    obtain ⟨l11, l12, hl1, h11, h12⟩ := List.map_eq_append_iff.mp h1
    refine ⟨l12 ++ l2, ⟨l11, by rw [hs, hl1, List.append_assoc]⟩, ?_⟩
    exact (likeMatch_lit t hw (l12 ++ l2)).mpr ⟨l12, l2, rfl, h12⟩

/-- Helper: Boolean form of the previous equivalence, per name field. -/
theorem likeMatch_eq_decide_containsCI (t : String) (hw : noWildcards t = true) (s : String) :
    likeMatch (likePattern t) s.toList = decide (containsCI t s) := by
  unfold noWildcards at hw
  have h := likeMatch_infix_of_noWild t.toList s.toList hw
  by_cases hc : containsCI t s
  · rw [decide_eq_true hc]
    exact h.mpr hc
  · rw [decide_eq_false hc]
    rw [← Bool.not_eq_true]
    intro hlm
    exact hc (h.mp hlm)

/-- Helper: the search branch's WHERE filter coincides, for wildcard-free
terms, with the case-insensitive substring specification. -/
theorem filter_patientMatches_eq (t : String) (hw : noWildcards t = true) (db : List PatientRow) :
    db.filter (patientMatches t) = db.filter (fun r =>
      r.is_active && (decide (containsCI t r.first_name) || decide (containsCI t r.last_name))) := by
  apply List.filter_congr
  intro r _
  unfold patientMatches
  rw [likeMatch_eq_decide_containsCI t hw r.first_name,
      likeMatch_eq_decide_containsCI t hw r.last_name, Bool.and_comm]

/-- Helper: the search branch of `get_patients` by unfolding. -/
theorem get_patients_some_eq (t : String) (db : List PatientRow) :
    get_patients (some t) db =
      if t ≠ "" then List.insertionSort patLe (db.filter (patientMatches t))
      else List.insertionSort patLe (db.filter (fun r => r.is_active)) := rfl

/-- C6 (amended): listing with an absent or empty filter returns exactly the
active patients sorted by (last name, first name); for a non-empty filter
free of the `LIKE` wildcards `%` and `_` it returns exactly the active
patients whose first or last name contains the filter case-insensitively,
in the same order; every result of any filter is sorted and active. -/
theorem get_patients_search_spec (db : List PatientRow) (t : String)
    (ht : t ≠ "") (hw : noWildcards t = true) :
    get_patients none db = get_patients (some "") db ∧
    (get_patients none db).Perm (db.filter (fun r => r.is_active)) ∧
    (get_patients (some t) db).Perm (db.filter (fun r =>
       r.is_active && (decide (containsCI t r.first_name) || decide (containsCI t r.last_name)))) ∧
    (∀ term, List.Sorted patLe (get_patients term db)) ∧
    (∀ term r, r ∈ get_patients term db → r.is_active = true) := by
  refine ⟨rfl, List.perm_insertionSort patLe _, ?_, ?_, ?_⟩
  · rw [get_patients_some_eq, if_pos ht, filter_patientMatches_eq t hw db]
    exact List.perm_insertionSort patLe _
  · intro term
    cases term with
    | none => exact List.sorted_insertionSort patLe _
    | some t' =>
      rw [get_patients_some_eq]
      split_ifs <;> exact List.sorted_insertionSort patLe _
  · intro term r hr
    cases term with
    | none =>
      have hmem := (List.perm_insertionSort patLe (db.filter (fun r => r.is_active))).mem_iff.mp hr
      exact (List.mem_filter.mp hmem).2
    | some t' =>
      rw [get_patients_some_eq] at hr
      by_cases h' : t' ≠ ""
      · rw [if_pos h'] at hr
        have hmem := (List.perm_insertionSort patLe _).mem_iff.mp hr
        have hp := (List.mem_filter.mp hmem).2
        simp only [patientMatches, Bool.and_eq_true] at hp
        exact hp.2
      · rw [if_neg h'] at hr
        have hmem := (List.perm_insertionSort patLe _).mem_iff.mp hr
        exact (List.mem_filter.mp hmem).2

theorem get_patients_search_spec_witness :
    (("Jan" : String) ≠ "") ∧ noWildcards "Jan" = true ∧
    (get_patients (some "Jan")
       [⟨1, "Janet", "Doe", true⟩, ⟨2, "Janet", "Poe", false⟩, ⟨3, "Bob", "Smith", true⟩]).Perm
      ([⟨1, "Janet", "Doe", true⟩, ⟨2, "Janet", "Poe", false⟩, ⟨3, "Bob", "Smith", true⟩].filter
        (fun r => r.is_active &&
          (decide (containsCI "Jan" r.first_name) || decide (containsCI "Jan" r.last_name)))) :=
  ⟨by decide, by decide,
   (get_patients_search_spec
     [⟨1, "Janet", "Doe", true⟩, ⟨2, "Janet", "Poe", false⟩, ⟨3, "Bob", "Smith", true⟩]
     "Jan" (by decide) (by decide)).2.2.1⟩

/-- C6 counterexample: for the non-empty filter `a_c` the code returns a
patient although neither name contains the filter as a substring — the
underscore acts as a `LIKE` wildcard. -/
theorem get_patients_wildcard_counterexample :
    get_patients (some "a_c") [⟨1, "abc", "zz", true⟩] = [⟨1, "abc", "zz", true⟩] ∧
    ¬ containsCI "a_c" "abc" ∧ ¬ containsCI "a_c" "zz" :=
  ⟨by decide, by decide, by decide⟩

